import Mathlib

/-!
Verification of the CANParser frame decoder (crate `can_parser`) against its
natural-language specification.  The Rust sources are shallowly embedded:
machine integers become `Nat` with explicit `% 2 ^ w` where the Rust types
truncate, `f32`/`f64` arithmetic is modelled exactly over `ℚ`, fallible code
returns `Option` (with `none` modelling a Rust panic) or `Except String`
(modelling recoverable `Result::Err` values), and `HashMap`s become
association lists.
-/

namespace CANParser

/-- Value of a hexadecimal digit character, as accepted by Rust
`from_str_radix` with radix 16 (digits `0-9`, `a-f`, `A-F`). -/
def hexDigitVal? (c : Char) : Option Nat :=
  if '0' ≤ c ∧ c ≤ '9' then some (c.toNat - '0'.toNat)
  else if 'a' ≤ c ∧ c ≤ 'f' then some (c.toNat - 'a'.toNat + 10)
  else if 'A' ≤ c ∧ c ≤ 'F' then some (c.toNat - 'A'.toNat + 10)
  else none

/-- Accumulate hexadecimal digits left to right; `none` if some character is
not a hexadecimal digit. -/
def hexChars? (cs : List Char) : Option Nat :=
  cs.foldl (fun acc c => acc.bind (fun v => (hexDigitVal? c).map (fun d => v * 16 + d))) (some 0)

/-- Strip the single optional leading `+` accepted by `from_str_radix`. -/
def stripPlus (s : List Char) : List Char :=
  match s with
  | [] => []
  | c :: rest => if c = '+' then rest else c :: rest

/-- Model of Rust `uN::from_str_radix(s, 16)` for an unsigned integer type
with exclusive upper bound `bound` (`2 ^ 32` for `u32`, `2 ^ 8` for `u8`):
an optional leading `+`, then at least one hexadecimal digit; overflow past
the type's range is an error.  `none` models `Err(ParseIntError)`. -/
def fromStrRadix16? (s : List Char) (bound : Nat) : Option Nat :=
  let cs := stripPlus s
  match cs with
  | [] => none
  | _ :: _ => (hexChars? cs).bind (fun v => if v < bound then some v else none)

/-- `u32::from_str_radix(s, 16)` (src/can_parser/src/can_message.rs:290). -/
def u32FromHex? (s : String) : Option Nat :=
  fromStrRadix16? s.toList (2 ^ 32)

/-- `u8::from_str_radix(s, 16)` (src/can_parser/src/lib.rs:524). -/
def u8FromHex? (s : List Char) : Option Nat :=
  fromStrRadix16? s (2 ^ 8)

/-- Flags of a CAN message (struct `CANMessageFlags`). -/
structure CANMessageFlags where
  ext : Bool
  err : Bool
  rtr : Bool
deriving DecidableEq, Repr

/-- A CAN identifier record (struct `CANID`); all integer fields are stored
values of the Rust types `u32`/`u8`/`u16`. -/
structure CANID where
  id : Nat
  pri : Nat
  da : Nat
  sa : Nat
  pgn : Nat
  flags : CANMessageFlags
deriving DecidableEq, Repr

def CAN_SFF_MASK : Nat := 0x7FF
def CAN_RTR_FLAG : Nat := 0x40000000
def CAN_ERR_FLAG : Nat := 0x20000000
def PRIORITY_MASK : Nat := 0x1C000000
def PRIORITY_SHIFT : Nat := 26
def PDU_FORMAT_MASK : Nat := 0x3FF0000
def PDU_FORMAT_SHIFT : Nat := 16
def PDU_SPECIFIC_MASK : Nat := 0xFF00
def PDU_SPECIFIC_SHIFT : Nat := 8

/-- The `id` part of `CANMessage::default()`
(src/can_parser/src/can_message.rs:257-280): note `da` defaults to `0`. -/
def defaultCANID : CANID :=
  { id := 0, pri := 0, da := 0, sa := 0, pgn := 0,
    flags := { ext := false, err := false, rtr := false } }

/-- `parse_j1939_id` (src/can_parser/src/can_message.rs:304-319).
`pgn` is a `u16` field and `pdu_fmt << 8` is a `u16` shift in the source, so
the shift is reduced `% 2 ^ 16`; the subsequent `u16` addition of `pdu_spec`
cannot overflow because the low 8 bits of the shifted value are zero. -/
def parse_j1939_id (c : CANID) : CANID :=
  let pri := (c.id &&& PRIORITY_MASK) >>> PRIORITY_SHIFT
  let pdu_fmt := (c.id &&& PDU_FORMAT_MASK) >>> PDU_FORMAT_SHIFT
  let pdu_spec := (c.id &&& PDU_SPECIFIC_MASK) >>> PDU_SPECIFIC_SHIFT
  let sa := c.id &&& 0xFF
  if 240 ≤ pdu_fmt then
    { c with
      pri := pri
      sa := sa
      da := 255
      pgn := ((pdu_fmt <<< 8) % 2 ^ 16) + pdu_spec }
  else
    { c with
      pri := pri
      sa := sa
      da := pdu_spec
      pgn := (pdu_fmt <<< 8) % 2 ^ 16 }

/-- Body of `parse_id` after the `unwrap` of the hex parse
(src/can_parser/src/can_message.rs:290-300). -/
def parse_id_value (v : Nat) (c : CANID) : CANID :=
  let c1 : CANID :=
    { c with
      id := v
      flags := { ext := decide (CAN_SFF_MASK < v)
                 err := decide ((v &&& CAN_ERR_FLAG) = CAN_ERR_FLAG)
                 rtr := decide ((v &&& CAN_RTR_FLAG) = CAN_RTR_FLAG) } }
  if c1.flags.ext then parse_j1939_id c1 else c1

/-- `parse_id` (src/can_parser/src/can_message.rs:288-301).  The source calls
`.unwrap()` on the hex parse, so an unparseable identifier capture panics:
the panic is modelled by `none`. -/
def parse_id (s : String) (c : CANID) : Option CANID :=
  (u32FromHex? s).map (fun v => parse_id_value v c)

lemma and_mask_eq_iff_ne (v i : Nat) :
    ((v &&& 2 ^ i) = 2 ^ i) ↔ ((v &&& 2 ^ i) ≠ 0) := by
  have hpos : 0 < 2 ^ i := pow_pos (by norm_num) i
  rw [Nat.and_two_pow]
  cases h : v.testBit i
  · simpa using (Nat.ne_of_lt hpos)
  · simp [hpos.ne']

lemma shiftLeft8_or_eq_add (a b : Nat) (hb : b < 256) :
    (a <<< 8) ||| b = (a <<< 8) + b := by
  have hb' : b < 2 ^ 8 := by
    have h28 : (2 : Nat) ^ 8 = 256 := by norm_num
    omega
  rw [Nat.shiftLeft_eq]
  rw [Nat.mul_comm a (2 ^ 8)]
  exact (Nat.mul_add_lt_is_or hb' a).symm

lemma pdu_specific_lt (v : Nat) : (v &&& 0xFF00) >>> 8 < 256 := by
  have h1 : v &&& 0xFF00 ≤ 0xFF00 := Nat.and_le_right
  have h2 : (v &&& 0xFF00) >>> 8 = (v &&& 0xFF00) / 2 ^ 8 := Nat.shiftRight_eq_div_pow _ _
  have h28 : (2 : Nat) ^ 8 = 256 := by norm_num
  omega

/-- C1: for every hexadecimal identifier string that parses as an unsigned
32-bit integer, `parse_id` sets `ext = (id > 0x7FF)`,
`err = ((id & 0x20000000) != 0)`, `rtr = ((id & 0x40000000) != 0)`; and when
`ext` holds, `parse_j1939_id` sets `pri = (id & 0x1C000000) >> 26`,
`sa = id & 0xFF`, and from `pdu_format = (id & 0x03FF0000) >> 16` and
`pdu_specific = (id & 0xFF00) >> 8`: if `pdu_format >= 240` then
`pgn = (pdu_format << 8) | pdu_specific` with `da = 255`, else
`pgn = pdu_format << 8` with `da = pdu_specific`.  `pgn` is a `u16` field,
so its defining equation is read modulo `2 ^ 16` (the reduction is vacuous
whenever `pdu_format < 256`). -/
theorem parse_id_spec (s : String) (v : Nat) (c : CANID)
    (h : u32FromHex? s = some v) :
    ∃ c', parse_id s c = some c' ∧
      c'.id = v ∧
      c'.flags.ext = decide (0x7FF < v) ∧
      c'.flags.err = decide ((v &&& 0x20000000) ≠ 0) ∧
      c'.flags.rtr = decide ((v &&& 0x40000000) ≠ 0) ∧
      (0x7FF < v →
        c'.pri = (v &&& 0x1C000000) >>> 26 ∧
        c'.sa = v &&& 0xFF ∧
        (if 240 ≤ (v &&& 0x03FF0000) >>> 16 then
          c'.pgn = ((((v &&& 0x03FF0000) >>> 16) <<< 8) ||| ((v &&& 0xFF00) >>> 8)) % 2 ^ 16 ∧
          c'.da = 255
        else
          c'.pgn = ((v &&& 0x03FF0000) >>> 16) <<< 8 ∧
          c'.da = (v &&& 0xFF00) >>> 8)) := by
  refine ⟨parse_id_value v c, by rw [parse_id, h]; rfl, ?_⟩
  have herr : decide ((v &&& CAN_ERR_FLAG) = CAN_ERR_FLAG)
      = decide ((v &&& 0x20000000) ≠ 0) := by
    have h29 := and_mask_eq_iff_ne v 29
    norm_num at h29
    rw [CAN_ERR_FLAG]
    simp only [decide_eq_decide]
    exact h29
  have hrtr : decide ((v &&& CAN_RTR_FLAG) = CAN_RTR_FLAG)
      = decide ((v &&& 0x40000000) ≠ 0) := by
    have h30 := and_mask_eq_iff_ne v 30
    norm_num at h30
    rw [CAN_RTR_FLAG]
    simp only [decide_eq_decide]
    exact h30
  have hflags :
      (CANMessageFlags.mk (decide (CAN_SFF_MASK < v))
        (decide ((v &&& CAN_ERR_FLAG) = CAN_ERR_FLAG))
        (decide ((v &&& CAN_RTR_FLAG) = CAN_RTR_FLAG)))
      = CANMessageFlags.mk (decide (0x7FF < v))
        (decide ((v &&& 0x20000000) ≠ 0)) (decide ((v &&& 0x40000000) ≠ 0)) := by
    rw [herr, hrtr]
    rfl
  by_cases hext : 0x7FF < v
  · have hb : decide (CAN_SFF_MASK < v) = true := decide_eq_true hext
    have hc1 : parse_id_value v c = parse_j1939_id
        { c with
          id := v
          flags := { ext := decide (CAN_SFF_MASK < v)
                     err := decide ((v &&& CAN_ERR_FLAG) = CAN_ERR_FLAG)
                     rtr := decide ((v &&& CAN_RTR_FLAG) = CAN_RTR_FLAG) } } := by
      unfold parse_id_value
      simp [hb]
    rw [hc1]
    unfold parse_j1939_id
    simp only [PRIORITY_MASK, PRIORITY_SHIFT, PDU_FORMAT_MASK, PDU_FORMAT_SHIFT,
      PDU_SPECIFIC_MASK, PDU_SPECIFIC_SHIFT]
    by_cases hfmt : 240 ≤ (v &&& 0x03FF0000) >>> 16
    · rw [if_pos hfmt, if_pos hfmt]
      refine ⟨rfl, ?_, ?_, ?_, fun _ => ⟨rfl, rfl, ?_, rfl⟩⟩
      · show decide (CAN_SFF_MASK < v) = decide (0x7FF < v)
        rfl
      · exact herr
      · exact hrtr
      show (((v &&& 0x03FF0000) >>> 16) <<< 8) % 2 ^ 16 + ((v &&& 0xFF00) >>> 8)
          = ((((v &&& 0x03FF0000) >>> 16) <<< 8) ||| ((v &&& 0xFF00) >>> 8)) % 2 ^ 16
      have hps := pdu_specific_lt v
      rw [shiftLeft8_or_eq_add _ _ hps]
      have hx : ((v &&& 0x03FF0000) >>> 16) <<< 8
          = ((v &&& 0x03FF0000) >>> 16) * 256 := by
        rw [Nat.shiftLeft_eq]
      rw [hx]
      omega
    · rw [if_neg hfmt, if_neg hfmt]
      refine ⟨rfl, ?_, ?_, ?_, fun _ => ⟨rfl, rfl, ?_, rfl⟩⟩
      · show decide (CAN_SFF_MASK < v) = decide (0x7FF < v)
        rfl
      · exact herr
      · exact hrtr
      show (((v &&& 0x03FF0000) >>> 16) <<< 8) % 2 ^ 16
          = ((v &&& 0x03FF0000) >>> 16) <<< 8
      have hlt : (v &&& 0x03FF0000) >>> 16 < 240 := by omega
      have hx : ((v &&& 0x03FF0000) >>> 16) <<< 8
          = ((v &&& 0x03FF0000) >>> 16) * 256 := by
        rw [Nat.shiftLeft_eq]
      rw [hx]
      have h216 : (2 : Nat) ^ 16 = 65536 := by norm_num
      omega
  · have hb : decide (CAN_SFF_MASK < v) = false := decide_eq_false hext
    have hc1 : parse_id_value v c =
        { c with
          id := v
          flags := { ext := decide (CAN_SFF_MASK < v)
                     err := decide ((v &&& CAN_ERR_FLAG) = CAN_ERR_FLAG)
                     rtr := decide ((v &&& CAN_RTR_FLAG) = CAN_RTR_FLAG) } } := by
      unfold parse_id_value
      simp [hb]
    rw [hc1]
    exact ⟨rfl, rfl, herr, hrtr, fun hc => absurd hc hext⟩

/-- Witness for `parse_id_spec` at the identifier string "0CF00400"
(extended id, PDU2 branch). -/
theorem parse_id_spec_witness :
    ∃ c', parse_id "0CF00400" defaultCANID = some c' ∧
      c'.id = 0x0CF00400 ∧
      c'.flags.ext = decide (0x7FF < 0x0CF00400) ∧
      c'.flags.err = decide ((0x0CF00400 &&& 0x20000000) ≠ 0) ∧
      c'.flags.rtr = decide ((0x0CF00400 &&& 0x40000000) ≠ 0) ∧
      (0x7FF < 0x0CF00400 →
        c'.pri = (0x0CF00400 &&& 0x1C000000) >>> 26 ∧
        c'.sa = 0x0CF00400 &&& 0xFF ∧
        (if 240 ≤ (0x0CF00400 &&& 0x03FF0000) >>> 16 then
          c'.pgn = ((((0x0CF00400 &&& 0x03FF0000) >>> 16) <<< 8)
              ||| ((0x0CF00400 &&& 0xFF00) >>> 8)) % 2 ^ 16 ∧
          c'.da = 255
        else
          c'.pgn = ((0x0CF00400 &&& 0x03FF0000) >>> 16) <<< 8 ∧
          c'.da = (0x0CF00400 &&& 0xFF00) >>> 8)) :=
  parse_id_spec "0CF00400" 0x0CF00400 defaultCANID (by decide)

/-! ## The SPN bit extractor -/

/-- `parse_j1939_data_inner` (src/can_parser/src/can_message.rs:358-386).
`start_bit`, `length` and the loop counter are `u8`, so the sum
`start_bit + i` wraps `% 256` (release-mode semantics); the cast
`(data.len() - 1) as u8` is likewise `% 256`.  The `f32` accumulation,
scaling, offset and wrap are modelled exactly over `ℚ`.  The source's
`data.get(byte).unwrap()` is modelled with `getD`: in the program `data` is
the 64-byte payload buffer and the guard `byte <= len` keeps the index in
bounds. -/
def parse_j1939_data_inner (data : List Nat) (start_bit length : Nat)
    (scaling offset mx : ℚ) : ℚ :=
  let len := if (data.length - 1) % 256 < length then (data.length - 1) % 256 else length
  let value : ℚ := (List.range len).foldl
    (fun v i =>
      let byte := ((start_bit + i) % 256) / 8
      let bit := ((start_bit + i) % 256) % 8
      let bit_value : Nat := if byte ≤ len then ((data.getD byte 0) >>> bit) &&& 1 else 0
      v + (bit_value : ℚ) * 2 ^ i) 0
  let value := value * scaling + offset
  if mx < value then value - mx else value

/-- The SPN value exactly as claim C2 states it: every bit of the clamped
window is read from the payload, with no further guard. -/
def spnClaimedValue (data : List Nat) (start_bit length : Nat)
    (scaling offset mx : ℚ) : ℚ :=
  let L := if (data.length - 1) < length then data.length - 1 else length
  let value : ℚ := ∑ i ∈ Finset.range L,
    ((((data.getD ((start_bit + i) / 8) 0) >>> ((start_bit + i) % 8)) &&& 1 : Nat) : ℚ) * 2 ^ i
  let value := value * scaling + offset
  if mx < value then value - mx else value

/-- Claim C2's formula amended with the source's extra guard: bit `i`
contributes `0` whenever its byte index `((start_bit + i) % 256) / 8`
exceeds the clamped bit length `L` (the source compares a byte index
against a bit count), and the `u8` index arithmetic wraps `% 256`. -/
def spnAmendedValue (data : List Nat) (start_bit length : Nat)
    (scaling offset mx : ℚ) : ℚ :=
  let L := if (data.length - 1) % 256 < length then (data.length - 1) % 256 else length
  let value : ℚ := ∑ i ∈ Finset.range L,
    ((if ((start_bit + i) % 256) / 8 ≤ L then
        ((data.getD (((start_bit + i) % 256) / 8) 0) >>> (((start_bit + i) % 256) % 8)) &&& 1
      else 0 : Nat) : ℚ) * 2 ^ i
  let value := value * scaling + offset
  if mx < value then value - mx else value

lemma foldl_range_add_eq_sum (f : Nat → ℚ) (n : Nat) (a : ℚ) :
    (List.range n).foldl (fun v i => v + f i) a = a + ∑ i ∈ Finset.range n, f i := by
  induction n with
  | zero => simp
  | succ n ih =>
    rw [List.range_succ, List.foldl_append, ih, Finset.sum_range_succ]
    simp [List.foldl]
    ring

/-- C2 counterexample: with a 64-byte all-ones payload, `start_bit = 56`,
`length = 4`, resolution 1, offset 0, max 10^9, the claim's formula reads
the four low bits of byte 7 and yields 15, but the source's guard
`byte <= len` (byte index 7 against bit count 4) zeroes every bit and the
extractor returns 0. -/
theorem spn_inner_counterexample :
    parse_j1939_data_inner (List.replicate 64 255) 56 4 1 0 1000000000 = 0 ∧
    spnClaimedValue (List.replicate 64 255) 56 4 1 0 1000000000 = 15 ∧
    (0 : ℚ) ≠ 15 := by
  refine ⟨?_, ?_, by norm_num⟩
  · simp only [parse_j1939_data_inner, List.length_replicate]
    norm_num [List.range_succ, List.range_zero, List.foldl_append, List.foldl_cons,
      List.foldl_nil]
  · simp only [spnClaimedValue, List.length_replicate]
    norm_num [Finset.sum_range_succ]
    rw [show ((255 : Nat) >>> 1 % 2) = 1 from rfl, show ((255 : Nat) >>> 2 % 2) = 1 from rfl,
      show ((255 : Nat) >>> 3 % 2) = 1 from rfl]
    norm_num

/-- C2 amended: the extractor computes
`value = Σ_{i < L} bit_i · 2^i` with `L = length` clamped to
`payload_len - 1` (as a `u8`), where `bit_i` is
`(payload[((start_bit+i) mod 256)/8] >> ((start_bit+i) mod 256 mod 8)) & 1`
when `((start_bit+i) mod 256)/8 ≤ L` and `0` otherwise; then
`value = value * resolution + offset`, and `max` is subtracted exactly once
if `value > max`. -/
theorem spn_inner_eq_amended (data : List Nat) (start_bit length : Nat)
    (scaling offset mx : ℚ) :
    parse_j1939_data_inner data start_bit length scaling offset mx
      = spnAmendedValue data start_bit length scaling offset mx := by
  unfold parse_j1939_data_inner spnAmendedValue
  have hfold := foldl_range_add_eq_sum
    (fun i =>
      ((if ((start_bit + i) % 256) / 8
            ≤ (if (data.length - 1) % 256 < length then (data.length - 1) % 256 else length) then
          ((data.getD (((start_bit + i) % 256) / 8) 0) >>> (((start_bit + i) % 256) % 8)) &&& 1
        else 0 : Nat) : ℚ) * 2 ^ i)
    (if (data.length - 1) % 256 < length then (data.length - 1) % 256 else length) 0
  rw [zero_add] at hfold
  exact congrArg (fun w : ℚ => if mx < w * scaling + offset
    then w * scaling + offset - mx else w * scaling + offset) hfold

/-! ## Fixed-width text coercion -/

def vowelsList : List Char := ['a', 'e', 'i', 'o', 'u', 'A', 'E', 'I', 'O', 'U']

/-- `string_to_slice` (src/can_parser/src/j1939_spec.rs:444-475), modelled
on the written region `output[..len]`: the processed characters followed by
space padding.  Rust's Unicode `to_uppercase` is modelled by ASCII
`Char.toUpper` (annex labels are ASCII).  Note the all-uppercase test comes
first, regardless of the input's length. -/
def string_to_slice (input : List Char) (len : Nat) : List Char :=
  let input_chars :=
    if input = input.map Char.toUpper then
      input.take len
    else
      let noSpaces := input.filter (fun c => c != ' ')
      if len < noSpaces.length then
        let noVowels := noSpaces.filter (fun c => !(vowelsList.contains c))
        if len < noVowels.length then noVowels.take len else noVowels
      else noSpaces
  input_chars ++ List.replicate (len - input_chars.length) ' '

/-- `process_string` (src/can_parser/src/utils.rs:12-28).  Unlike
`string_to_slice` it has no all-uppercase branch and leaves strings that
already fit untouched; each removal step fires only while the text is still
longer than `len`. -/
def process_string (input : List Char) (len : Nat) : List Char :=
  let p1 := if len < input.length then input.filter (fun c => c != ' ') else input
  let p2 := if len < p1.length then p1.filter (fun c => !(vowelsList.contains c)) else p1
  if len < p2.length then p2.take len else p2

/-- The fixed-width coercion exactly as claim C5 states it: a copy-and-pad
first branch for every input that already fits, then the all-uppercase
truncation, then spaces / vowels / truncation, then padding. -/
def coercionClaimed (input : List Char) (len : Nat) : List Char :=
  if input.length ≤ len then
    input ++ List.replicate (len - input.length) ' '
  else if input = input.map Char.toUpper then
    input.take len
  else
    let noSpaces := input.filter (fun c => c != ' ')
    let afterVowels :=
      if len < noSpaces.length then noSpaces.filter (fun c => !(vowelsList.contains c))
      else noSpaces
    let t := if len < afterVowels.length then afterVowels.take len else afterVowels
    t ++ List.replicate (len - t.length) ' '

/-- Claim C5 amended: the all-uppercase (ASCII) check comes first and, for
inputs that are not all-uppercase, spaces are removed even when the input
already fits; vowel removal and truncation fire only while the text is
still longer than the width; the result is space-padded to the width. -/
def coercionAmended (input : List Char) (len : Nat) : List Char :=
  if input = input.map Char.toUpper then
    input.take len ++ List.replicate (len - (input.take len).length) ' '
  else
    let noSpaces := input.filter (fun c => c != ' ')
    let afterVowels :=
      if len < noSpaces.length then noSpaces.filter (fun c => !(vowelsList.contains c))
      else noSpaces
    let t := if len < afterVowels.length then afterVowels.take len else afterVowels
    t ++ List.replicate (len - t.length) ' '

/-- C5 counterexample: the claim's own example fails — `"Engine Speed"`
coerced to width 10 yields `"ngnSpd    "` (after removing spaces the text
is 11 characters long, so the vowels are removed as well), not
`"EnginSpeed"` — and the claim's copy-when-it-fits first branch fails on a
short non-uppercase input containing a space. -/
theorem string_to_slice_counterexample :
    string_to_slice "Engine Speed".toList 10 = "ngnSpd    ".toList ∧
    "ngnSpd    ".toList ≠ "EnginSpeed".toList ∧
    string_to_slice "a b".toList 10 = "ab        ".toList ∧
    coercionClaimed "a b".toList 10 = "a b       ".toList ∧
    "ab        ".toList ≠ "a b       ".toList := by
  refine ⟨by decide, by decide, by decide, by decide, by decide⟩

/-- C5 amended: the fixed-width coercion checks all-uppercase first
(truncate and pad); otherwise it removes ASCII spaces unconditionally, then
removes the vowels `aeiouAEIOU` if still longer than the width, then
truncates if still longer, then space-pads.  `"Engine Speed"` at width 10
gives `"ngnSpd    "`; `"ENGINE"` at width 4 gives `"ENGI"`. -/
theorem string_to_slice_eq_amended :
    (∀ input len, string_to_slice input len = coercionAmended input len) ∧
    string_to_slice "Engine Speed".toList 10 = "ngnSpd    ".toList ∧
    string_to_slice "ENGINE".toList 4 = "ENGI".toList := by
  refine ⟨fun input len => ?_, by decide, by decide⟩
  unfold string_to_slice coercionAmended
  by_cases h1 : input = input.map Char.toUpper
  · rw [if_pos h1, if_pos h1]
  · rw [if_neg h1, if_neg h1]
    dsimp only
    by_cases h2 : len < (List.filter (fun c => c != ' ') input).length
    · rw [if_pos h2, if_pos h2]
    · rw [if_neg h2, if_neg h2, if_neg h2]

/-! ## CANData serialization round trip -/

/-- Uppercase hexadecimal digit for a value below 16. -/
def hexDigitUpper (d : Nat) : Char :=
  if d < 10 then Char.ofNat ('0'.toNat + d) else Char.ofNat ('A'.toNat + (d - 10))

/-- `hex::encode_upper` of one byte. -/
def byteHexUpper (b : Nat) : List Char :=
  [hexDigitUpper (b / 16), hexDigitUpper (b % 16)]

/-- The `data` field written by `CANData::serialize`
(src/can_parser/src/can_message.rs:52-57): the empty string when the whole
64-byte buffer is zero, otherwise the uppercase hex of the first `len`
bytes. -/
def serializeDataField (len : Nat) (data : List Nat) : List Char :=
  if data.all (fun b => b == 0) then []
  else ((data.take len).map byteHexUpper).flatten

/-- `as_bytes().chunks(2)`: split into pairs, a trailing singleton last. -/
def chunks2 : List Char → List (List Char)
  | [] => []
  | [a] => [[a]]
  | a :: b :: rest => [a, b] :: chunks2 rest

/-- The `data` branch of `CANData::deserialize`
(src/can_parser/src/can_message.rs:101-117): the string is passed through
`process_string(_, 64)`, split into chunks of two characters, each parsed
as a hexadecimal `u8` (`unwrap`: a parse failure panics), and the byte
vector is converted by `try_into::<[u8; 64]>().unwrap()` (a length other
than 64 panics).  `none` models a panic. -/
def deserializeDataField (s : List Char) : Option (List Nat) :=
  let processed := process_string s 64
  match (chunks2 processed).mapM u8FromHex? with
  | none => none
  | some bytes => if bytes.length = 64 then some bytes else none

lemma trunc_length_le (l : List Char) (n : Nat) :
    (if n < l.length then l.take n else l).length ≤ n := by
  split
  · rw [List.length_take]; omega
  · omega

lemma process_string_length_le (s : List Char) (n : Nat) :
    (process_string s n).length ≤ n := by
  unfold process_string
  exact trunc_length_le _ n

lemma chunks2_length : ∀ l : List Char, (chunks2 l).length = (l.length + 1) / 2
  | [] => by simp [chunks2]
  | [a] => by simp [chunks2]
  | a :: b :: rest => by
    simp [chunks2, chunks2_length rest]
    omega

lemma mapM_option_length {α β : Type} (f : α → Option β) :
    ∀ (l : List α) (r : List β), l.mapM f = some r → r.length = l.length
  | [], r, h => by
    have h' : (some ([] : List β)) = some r := h
    rw [← Option.some.inj h']
    rfl
  | a :: t, r, h => by
    rw [List.mapM_cons] at h
    cases hf : f a with
    | none => rw [hf] at h; simp at h
    | some b =>
      rw [hf] at h
      cases hm : t.mapM f with
      | none => rw [hm] at h; simp at h
      | some r' =>
        rw [hm] at h
        simp at h
        rw [← h]
        simp [mapM_option_length f t r' hm]

/-- C6 (code bug): `CANData::deserialize` can never rebuild the 64-byte
array — `process_string` caps the hex text at 64 characters, so at most 32
bytes are decoded and `try_into::<[u8; 64]>().unwrap()` panics on every
input; in particular round-tripping the default all-zero `CANData`
(serialized `data` field `""`) panics instead of returning the original
value. -/
theorem deserialize_data_always_panics :
    (∀ s : List Char, deserializeDataField s = none) ∧
    deserializeDataField (serializeDataField 0 (List.replicate 64 0)) = none := by
  have hmain : ∀ s : List Char, deserializeDataField s = none := by
    intro s
    unfold deserializeDataField
    cases hm : (chunks2 (process_string s 64)).mapM u8FromHex? with
    | none =>
      dsimp only
      rw [hm]
    | some bytes =>
      have h1 := process_string_length_le s 64
      have h2 := chunks2_length (process_string s 64)
      have h3 := mapM_option_length u8FromHex? _ _ hm
      dsimp only
      rw [hm]
      show (if bytes.length = 64 then some bytes else none : Option (List Nat)) = none
      rw [if_neg (by omega : ¬ bytes.length = 64)]
  exact ⟨hmain, hmain _⟩

/-! ## The data-capture unpacking loop -/

/-- One iteration of the hex-pair loop of `parse_line_inner`
(src/can_parser/src/lib.rs:523-526) at index `i`: the two-character slice
`data[i..i+2]` panics (`none`) when out of range; a failed byte parse is
the recoverable error "Failed to parse data"; otherwise `buf[i/2]` is set. -/
def unpackStep (d : List Char) (acc : Option (Except String (List Nat))) (i : Nat) :
    Option (Except String (List Nat)) :=
  match acc with
  | none => none
  | some (Except.error e) => some (Except.error e)
  | some (Except.ok b) =>
    if i + 2 ≤ d.length then
      match u8FromHex? ((d.drop i).take 2) with
      | some byte => some (Except.ok (b.set (i / 2) byte))
      | none => some (Except.error "Failed to parse data")
    else none

/-- The `data`-capture unpacking of `parse_line_inner`
(src/can_parser/src/lib.rs:520-527): `length = min(capture length, 64)`;
the loop `for i in (0..length).step_by(2)` decodes hex pairs into the
64-byte buffer; `len = length / 2`. -/
def unpackData (buf : List Nat) (d : List Char) : Option (Except String (List Nat × Nat)) :=
  let length := min d.length 64
  (((List.range ((length + 1) / 2)).map (fun k => 2 * k)).foldl (unpackStep d)
    (some (Except.ok buf))).map (Except.map (fun b => (b, length / 2)))

/-- Claim C4 amended: the capture is truncated to 64 hexadecimal
characters — 32 bytes — when longer; byte `j` is decoded from the character
pair `2j, 2j+1`; `len = min(capture length, 64) / 2`. -/
def unpackClaimed (d : List Char) : List Nat × Nat :=
  let n := min d.length 64 / 2
  ((List.range n).map (fun j =>
      ((hexDigitVal? (d.getD (2 * j) ' ')).getD 0) * 16
        + ((hexDigitVal? (d.getD (2 * j + 1) ' ')).getD 0))
    ++ List.replicate (64 - n) 0, n)

lemma char_le_toNat {a b : Char} (h : a ≤ b) : a.toNat ≤ b.toNat := by
  rw [Char.le_def, UInt32.le_def, BitVec.le_def] at h
  exact h

lemma hexDigitVal?_lt_16 (c : Char) (v : Nat) (h : hexDigitVal? c = some v) : v < 16 := by
  unfold hexDigitVal? at h
  split at h
  · next hc =>
    have hb := char_le_toNat hc.2
    have h9 : ('9' : Char).toNat = 57 := by decide
    have h0 : ('0' : Char).toNat = 48 := by decide
    simp only [Option.some.injEq] at h
    omega
  · split at h
    · next hc =>
      have hb := char_le_toNat hc.2
      have hf : ('f' : Char).toNat = 102 := by decide
      have ha : ('a' : Char).toNat = 97 := by decide
      simp only [Option.some.injEq] at h
      omega
    · split at h
      · next hc =>
        have hb := char_le_toNat hc.2
        have hf : ('F' : Char).toNat = 70 := by decide
        have ha : ('A' : Char).toNat = 65 := by decide
        simp only [Option.some.injEq] at h
        omega
      · exact absurd h (by simp)

lemma getD_eq_getElem (l : List Char) (i : Nat) (h : i < l.length) :
    l.getD i ' ' = l[i] := by
  rw [List.getD_eq_getElem?_getD, List.getElem?_eq_getElem h]
  rfl

lemma take_two_drop (d : List Char) (i : Nat) (h : i + 2 ≤ d.length) :
    (d.drop i).take 2 = [d.getD i ' ', d.getD (i + 1) ' '] := by
  have h1 : i < d.length := by omega
  have h2 : i + 1 < d.length := by omega
  rw [List.drop_eq_getElem_cons h1, List.drop_eq_getElem_cons h2]
  rw [getD_eq_getElem d i h1, getD_eq_getElem d (i + 1) h2]
  rfl

lemma u8FromHex_pair (c1 c2 : Char) (v1 v2 : Nat)
    (h1 : hexDigitVal? c1 = some v1) (h2 : hexDigitVal? c2 = some v2) :
    u8FromHex? [c1, c2] = some (v1 * 16 + v2) := by
  have hne : c1 ≠ '+' := by
    intro hc
    rw [hc, show hexDigitVal? '+' = none from by decide] at h1
    simp at h1
  have b1 := hexDigitVal?_lt_16 c1 v1 h1
  have b2 := hexDigitVal?_lt_16 c2 v2 h2
  have hstrip : stripPlus [c1, c2] = [c1, c2] := by
    show (if c1 = '+' then [c2] else c1 :: [c2]) = [c1, c2]
    rw [if_neg hne]
  unfold u8FromHex? fromStrRadix16?
  dsimp only
  rw [hstrip]
  show (hexChars? [c1, c2]).bind (fun v => if v < 2 ^ 8 then some v else none)
      = some (v1 * 16 + v2)
  have hh : hexChars? [c1, c2] = some ((0 * 16 + v1) * 16 + v2) := by
    simp [hexChars?, h1, h2]
  rw [hh]
  show (if (0 * 16 + v1) * 16 + v2 < 2 ^ 8 then some ((0 * 16 + v1) * 16 + v2) else none)
      = some (v1 * 16 + v2)
  have h256 : (2 : Nat) ^ 8 = 256 := by norm_num
  rw [if_pos (by omega)]
  congr 1
  ring

lemma set_append_cons (A : List Nat) (x : Nat) (B : List Nat) (b : Nat) :
    (A ++ x :: B).set A.length b = A ++ b :: B := by
  induction A with
  | nil => rfl
  | cons a t ih => simp only [List.cons_append, List.length_cons, List.set_cons_succ, ih]

lemma set_append_cons' (A : List Nat) (x : Nat) (B : List Nat) (b k : Nat)
    (hA : A.length = k) : (A ++ x :: B).set k b = A ++ b :: B := by
  subst hA
  exact set_append_cons A x B b

set_option maxRecDepth 4000 in
/-- C4 counterexample: a capture of 130 hexadecimal characters encodes 65
bytes; the claim says the payload is truncated to 64 bytes, but the source
truncates the capture to 64 characters and decodes 32 bytes
(`len = 32`). -/
theorem unpack_truncation_counterexample :
    (unpackData (List.replicate 64 0) (List.replicate 130 '0')).map (Except.map Prod.snd)
      = some (Except.ok 32) ∧ (32 : Nat) ≠ 64 := by
  refine ⟨rfl, by decide⟩

/-- C4 amended: for a capture of hexadecimal characters whose length is
even or at least 64, the loop decodes `min(capture length, 64) / 2` bytes —
truncation happens at 64 hex characters, i.e. 32 bytes, not 64 bytes — into
the zeroed 64-byte buffer, byte `j` coming from the character pair at
positions `2j, 2j+1`, and sets `len` to that byte count. -/
theorem unpack_data_spec (d : List Char)
    (hhex : ∀ c ∈ d, (hexDigitVal? c).isSome)
    (hlen : d.length % 2 = 0 ∨ 64 ≤ d.length) :
    unpackData (List.replicate 64 0) d = some (Except.ok (unpackClaimed d)) := by
  have hK : (min d.length 64 + 1) / 2 = min d.length 64 / 2 := by omega
  have h2K : 2 * (min d.length 64 / 2) ≤ d.length := by omega
  have hK32 : min d.length 64 / 2 ≤ 32 := by omega
  have hbyte : ∀ j, 2 * j + 1 < d.length →
      ∃ v1 v2, hexDigitVal? (d.getD (2 * j) ' ') = some v1 ∧
        hexDigitVal? (d.getD (2 * j + 1) ' ') = some v2 := by
    intro j hj
    have hj1 : 2 * j < d.length := by omega
    have hm1 : d.getD (2 * j) ' ' ∈ d := by
      rw [getD_eq_getElem d _ hj1]
      exact List.getElem_mem hj1
    have hm2 : d.getD (2 * j + 1) ' ' ∈ d := by
      rw [getD_eq_getElem d _ hj]
      exact List.getElem_mem hj
    obtain ⟨v1, hv1⟩ := Option.isSome_iff_exists.mp (hhex _ hm1)
    obtain ⟨v2, hv2⟩ := Option.isSome_iff_exists.mp (hhex _ hm2)
    exact ⟨v1, v2, hv1, hv2⟩
  have hinv : ∀ k, k ≤ min d.length 64 / 2 →
      ((List.range k).map (fun j => 2 * j)).foldl (unpackStep d)
          (some (Except.ok (List.replicate 64 0)))
        = some (Except.ok ((List.range k).map (fun j =>
            ((hexDigitVal? (d.getD (2 * j) ' ')).getD 0) * 16
              + ((hexDigitVal? (d.getD (2 * j + 1) ' ')).getD 0))
          ++ List.replicate (64 - k) 0)) := by
    intro k
    induction k with
    | zero => intro _; rfl
    | succ k ih =>
      intro hk
      have hk' : k ≤ min d.length 64 / 2 := by omega
      rw [List.range_succ, List.map_append, List.foldl_append, ih hk']
      have hsl : 2 * k + 2 ≤ d.length := by omega
      obtain ⟨v1, v2, hv1, hv2⟩ := hbyte k (by omega)
      rw [List.map_cons, List.map_nil, List.foldl_cons, List.foldl_nil]
      dsimp only [unpackStep]
      rw [if_pos hsl, take_two_drop d (2 * k) hsl]
      rw [u8FromHex_pair _ _ v1 v2 hv1 hv2]
      dsimp only
      have hidx : 2 * k / 2 = k := by omega
      rw [hidx]
      congr 1
      congr 1
      have hrep : List.replicate (64 - k) (0 : Nat)
          = 0 :: List.replicate (64 - (k + 1)) 0 := by
        have h64 : 64 - k = (64 - (k + 1)) + 1 := by omega
        rw [h64, List.replicate_succ]
      have hlenA : ((List.range k).map (fun j =>
          ((hexDigitVal? (d.getD (2 * j) ' ')).getD 0) * 16
            + ((hexDigitVal? (d.getD (2 * j + 1) ' ')).getD 0))).length = k := by
        rw [List.length_map, List.length_range]
      rw [hrep, set_append_cons' _ _ _ _ k hlenA]
      rw [List.map_append, List.map_cons, List.map_nil, List.append_assoc,
        List.singleton_append]
      congr 2
      rw [hv1, hv2]
      rfl
  unfold unpackData
  dsimp only
  rw [hK, hinv (min d.length 64 / 2) (le_refl _)]
  unfold unpackClaimed
  dsimp only
  rfl

/-- Witness for `unpack_data_spec` at the capture "DEADBEEF". -/
theorem unpack_data_spec_witness :
    (∀ c ∈ "DEADBEEF".toList, (hexDigitVal? c).isSome) ∧
    ("DEADBEEF".toList.length % 2 = 0 ∨ 64 ≤ "DEADBEEF".toList.length) ∧
    unpackData (List.replicate 64 0) "DEADBEEF".toList
      = some (Except.ok (unpackClaimed "DEADBEEF".toList)) :=
  ⟨by decide, by decide, unpack_data_spec "DEADBEEF".toList (by decide) (by decide)⟩

/-! ## Frames, layouts and the annex -/

/-- `CANData` (src/can_parser/src/can_message.rs:35-42); the `HashMap` of
SPN values becomes an association list. -/
structure CANData where
  len : Nat
  data : List Nat
  spns : List (Nat × ℚ)
deriving DecidableEq, Repr

/-- `CANMessage` (src/can_parser/src/can_message.rs:248-255); the `f64`
timestamp is modelled over `ℚ`. -/
structure CANMessage where
  ts : ℚ
  id : CANID
  data : CANData
deriving DecidableEq, Repr

/-- `CANMessage::default()` (src/can_parser/src/can_message.rs:257-280). -/
def defaultCANMessage : CANMessage :=
  { ts := 0
    id := defaultCANID
    data := { len := 0, data := List.replicate 64 0, spns := [] } }

/-- `SpecSPN` (src/can_parser/src/specification.rs:72-103); fixed-width
byte arrays become character lists, `f32` fields become `ℚ`. -/
structure SpecSPN where
  label : List Char
  description : String
  units : List Char
  length : Nat
  resolution : ℚ
  offset : ℚ
  max : ℚ
  start_bit : Nat
  spn_type : List Char
deriving DecidableEq, Repr

/-- `SpecPGN` (src/can_parser/src/specification.rs:124-155). -/
structure SpecPGN where
  label : List Char
  acronym : List Char
  description : String
  pdu_format : Nat
  pdu_specific : Nat
  priority : Nat
  length : Nat
  transmission_rate : List Char
  spns : List (Nat × SpecSPN)
deriving DecidableEq, Repr

/-- `SpecPGN::default()` (src/can_parser/src/specification.rs:157-171):
all-zero fixed arrays, zero numbers, empty SPN map. -/
def defaultSpecPGN : SpecPGN :=
  { label := List.replicate 32 (Char.ofNat 0)
    acronym := List.replicate 10 (Char.ofNat 0)
    description := ""
    pdu_format := 0
    pdu_specific := 0
    priority := 0
    length := 0
    transmission_rate := List.replicate 50 (Char.ofNat 0)
    spns := [] }

/-- The PGN layout cache `FilteredSpec.j1939`
(src/can_parser/src/specification.rs:345-355), a `HashMap<u16, SpecPGN>`
modelled as an association list. -/
abbrev Cache := List (Nat × SpecPGN)

/-- `HashMap::get`. -/
def lookupAssoc {α : Type} (m : List (Nat × α)) (k : Nat) : Option α :=
  (m.find? (fun p => p.1 == k)).map Prod.snd

/-- `HashMap::insert` (replaces any previous binding). -/
def insertAssoc {α : Type} (m : List (Nat × α)) (k : Nat) (v : α) : List (Nat × α) :=
  (k, v) :: m.filter (fun p => p.1 != k)

/-- `serde_json::Map::get` for string keys. -/
def lookupAssocStr {α : Type} (m : List (String × α)) (k : String) : Option α :=
  (m.find? (fun p => p.1 == k)).map Prod.snd

/-- `parse_j1939_data` (src/can_parser/src/can_message.rs:327-342): decode
every SPN of the layout into the message's SPN map. -/
def parse_j1939_data (d : CANData) (spn_info : List (Nat × SpecSPN)) : CANData :=
  { d with
    spns := spn_info.foldl
      (fun m p => insertAssoc m p.1
        (parse_j1939_data_inner d.data p.2.start_bit p.2.length p.2.resolution
          p.2.offset p.2.max)) d.spns }

/-- An entry of the JSON `SPNStartBits` array: a JSON integer, or a JSON
array whose first element is the start bit. -/
inductive StartBitEntry where
  | int (v : Int)
  | arr (vs : List Int)
deriving DecidableEq, Repr

/-- A well-formed entry of the JSON `J1939PGNdb` (fields the source reads
with `unwrap`; an entry lacking them panics and is not modelled). -/
structure PgnData where
  name : String
  pgnLabel : String
  pgnLength : String
  rate : String
  spnIds : List Nat
  spnStartBits : Option (List StartBitEntry)
deriving DecidableEq, Repr

/-- A well-formed entry of the JSON `J1939SPNdb`. -/
structure SpnData where
  name : String
  units : String
  spnLength : Int
  resolution : ℚ
  offset : ℚ
  operationalHigh : ℚ
deriving DecidableEq, Repr

/-- `enum Annex` (src/can_parser/src/specification.rs:173-178); the JSON
variant carries the optional `J1939PGNdb` / `J1939SPNdb` top-level keys;
the spreadsheet variant is behind a feature gate and out of scope. -/
inductive Annex where
  | json (pgndb : Option (List (String × PgnData))) (spndb : Option (List (String × SpnData)))
  | dbc
deriving DecidableEq, Repr

/-- `serde_json::Value::to_string()` on a JSON string produces the quoted
JSON text (modelled for quote-free contents). -/
def jsonQuote (s : String) : String := "\"" ++ s ++ "\""

/-- Decimal digit value. -/
def decDigitVal? (c : Char) : Option Nat :=
  if '0' ≤ c ∧ c ≤ '9' then some (c.toNat - '0'.toNat) else none

/-- Accumulate decimal digits. -/
def decChars? (cs : List Char) : Option Nat :=
  cs.foldl (fun acc c => acc.bind (fun v => (decDigitVal? c).map (fun d => v * 10 + d))) (some 0)

/-- Model of `str::parse::<u8>()` on a decimal string. -/
def u8FromDecimal? (s : String) : Option Nat :=
  let cs := stripPlus s.toList
  match cs with
  | [] => none
  | _ :: _ => (decChars? cs).bind (fun v => if v < 256 then some v else none)

/-- `parse_row_for_pgn_info_json` (src/can_parser/src/j1939_spec.rs:211-234):
the `Name`, `Label` and `Rate` values are converted with
`Value::to_string()` (which keeps the JSON quotes) and coerced to fixed
width; `PGNLength` is a string parsed as `u8` with `unwrap_or_default`. -/
def parse_row_for_pgn_info_json (p : PgnData) (aux : SpecPGN) : SpecPGN :=
  { aux with
    label := string_to_slice (jsonQuote p.name).toList 32
    acronym := string_to_slice (jsonQuote p.pgnLabel).toList 10
    length := (u8FromDecimal? p.pgnLength).getD 0
    transmission_rate := string_to_slice (jsonQuote p.rate).toList 50 }

/-- `parse_j1939_spns_json` (src/can_parser/src/j1939_spec.rs:283-352):
iterate over `SPNs.zip(SPNStartBits)` (an absent `SPNStartBits` zips with
the empty vector, producing no SPNs); `none` models the panic of
`start_t.get(0).unwrap()` on an empty inner array; SPN ids missing from the
SPN database are skipped; `i64 as u8` casts keep the low 8 bits; the map
key is `spn_name.parse::<u16>().unwrap_or_default()`. -/
def parse_j1939_spns_json (annex : List (String × SpnData)) (aux : SpecPGN)
    (spns : List Nat) (spn_start_bit : List StartBitEntry) : Option SpecPGN :=
  (spns.zip spn_start_bit).foldl
    (fun acc pair =>
      acc.bind (fun a =>
        let spn_name := toString pair.1
        match (match pair.2 with
               | StartBitEntry.arr vs => vs.head?
               | StartBitEntry.int v => some v) with
        | none => none
        | some start =>
          match lookupAssocStr annex spn_name with
          | none => some a
          | some spn_t =>
            let spn : SpecSPN :=
              { label := string_to_slice spn_t.name.toList 32
                description := ""
                units := string_to_slice spn_t.units.toList 10
                length := (spn_t.spnLength.emod 256).toNat
                resolution := spn_t.resolution
                offset := spn_t.offset
                max := spn_t.operationalHigh
                start_bit := if 0 ≤ start then (start.emod 256).toNat else 0
                spn_type := List.replicate 8 (Char.ofNat 0) }
            some { a with
              spns := insertAssoc a.spns (if pair.1 < 2 ^ 16 then pair.1 else 0) spn }))
    (some aux)

/-- `J1939Spec::get_id_metadata` (src/can_parser/src/j1939_spec.rs:133-201),
for the JSON and DBC annex variants.  A missing `J1939PGNdb` or `J1939SPNdb`
key is a `SpecError`; a PGN absent from the PGN database is NOT an error:
the default (empty) layout is returned as `Ok`. -/
def get_id_metadata (a : Annex) (cid : CANID) : Option (Except String SpecPGN) :=
  match a with
  | Annex.dbc => some (Except.error "Annex type not supported")
  | Annex.json pgndb spndb =>
    match pgndb with
    | none => some (Except.error "Could not find PGN database in JSON Digital Annex")
    | some db =>
      match lookupAssocStr db (toString cid.pgn) with
      | none => some (Except.ok defaultSpecPGN)
      | some pgn_data =>
        let aux := parse_row_for_pgn_info_json pgn_data defaultSpecPGN
        match spndb with
        | none => some (Except.error "Could not find SPN database in JSON Digital Annex")
        | some sdb =>
          match pgn_data.spnStartBits with
          | some sb => (parse_j1939_spns_json sdb aux pgn_data.spnIds sb).map Except.ok
          | none => (parse_j1939_spns_json sdb aux pgn_data.spnIds []).map Except.ok

/-! ## The line parser and pipeline -/

/-- The named captures of the line regex.  The regex engine itself is out
of scope (spec §1), so a capture outcome is supplied as data. -/
structure Captures where
  timestamp : Option String
  id : Option String
  data : Option String

/-- `struct Specs` (src/can_parser/src/lib.rs:57-62): only the `j1939`
member is implemented. -/
structure Specs where
  j1939 : Option Annex

/-- Model of `str::parse::<f64>()` for the timestamp capture, restricted
to plain decimal forms `[+-]? digits [. digits]?` and evaluated exactly
over `ℚ` (no claim depends on the value or on other accepted forms). -/
def parseF64? (s : String) : Option ℚ :=
  let (sgn, cs) : ℚ × List Char :=
    match s.toList with
    | '-' :: rest => (-1, rest)
    | '+' :: rest => (1, rest)
    | other => (1, other)
  match (String.mk cs).splitOn "." with
  | [intPart] =>
    (decChars? intPart.toList).bind (fun v =>
      if intPart.toList = [] then none else some (sgn * v))
  | [intPart, fracPart] =>
    (decChars? intPart.toList).bind (fun v =>
      (decChars? fracPart.toList).bind (fun w =>
        if intPart.toList = [] ∧ fracPart.toList = [] then none
        else some (sgn * (v + (w : ℚ) / 10 ^ fracPart.length))))
  | _ => none

/-- Timestamp step of `parse_line_inner` (src/can_parser/src/lib.rs:513-518). -/
def stepTimestamp (caps : Captures) (msg : CANMessage) : Except String CANMessage :=
  match caps.timestamp with
  | none => Except.ok msg
  | some t =>
    match parseF64? t with
    | some q => Except.ok { msg with ts := q }
    | none => Except.error "Failed to parse timestamp"

/-- Data step of `parse_line_inner` (src/can_parser/src/lib.rs:520-528). -/
def stepData (caps : Captures) (msg : CANMessage) : Option (Except String CANMessage) :=
  match caps.data with
  | none => some (Except.ok msg)
  | some d =>
    (unpackData msg.data.data d.toList).map (Except.map
      (fun r => { msg with data := { msg.data with data := r.1, len := r.2 } }))

/-- Identifier / SPN step of `parse_line_inner`
(src/can_parser/src/lib.rs:529-552): runs only when both the `id` capture
and the `Specs` are present; on a cache hit the cached layout is decoded;
on a miss with a J1939 annex, `get_id_metadata` is consulted, its `Err` is
a recoverable per-line error, and its `Ok` layout is inserted into the
cache — also when the layout is the default one for an unknown PGN. -/
def stepId (specs : Option Specs) (caps : Captures) (cache : Cache) (msg : CANMessage) :
    Option (Except String (CANMessage × Cache)) :=
  match caps.id, specs with
  | some idStr, some a =>
    match parse_id idStr msg.id with
    | none => none
    | some cid =>
      let msg1 := { msg with id := cid }
      if cid.flags.ext then
        match lookupAssoc cache cid.pgn with
        | some cached =>
          some (Except.ok ({ msg1 with data := parse_j1939_data msg1.data cached.spns }, cache))
        | none =>
          match a.j1939 with
          | none => some (Except.ok (msg1, cache))
          | some annex =>
            match get_id_metadata annex cid with
            | none => none
            | some (Except.error e) =>
              some (Except.error ("Failed to get metadata for PGN " ++ toString cid.pgn
                ++ ": SpecError: " ++ e))
            | some (Except.ok aux) =>
              some (Except.ok ({ msg1 with data := parse_j1939_data msg1.data aux.spns },
                insertAssoc cache cid.pgn aux))
      else some (Except.ok (msg1, cache))
  | _, _ => some (Except.ok (msg, cache))

/-- `parse_line_inner` (src/can_parser/src/lib.rs:501-555).  The compiled
regex is abstracted as a capture function; `none` models a panic,
`Except.error` a recoverable per-line failure.  The updated PGN layout
cache is returned alongside the decoded message. -/
def parse_line_inner (specs : Option Specs) (rgx : String → Option Captures)
    (line : String) (cache : Cache) : Option (Except String (CANMessage × Cache)) :=
  match rgx line with
  | none => some (Except.error "No captures found")
  | some caps =>
    match stepTimestamp caps defaultCANMessage with
    | Except.error e => some (Except.error e)
    | Except.ok msg =>
      match stepData caps msg with
      | none => none
      | some (Except.error e) => some (Except.error e)
      | some (Except.ok msg1) => stepId specs caps cache msg1

def ERROR_IGNORE : String := "ignore"
def ERROR_WARN : String := "warn"

/-- `handle_parsing_error` (src/can_parser/src/lib.rs:472-487): `none`
models the panic on an unknown error-handling mode. -/
def handle_parsing_error (error_handling : String) (errors : List String)
    (e line : String) : Option (List String) :=
  if error_handling = ERROR_IGNORE then some errors
  else if error_handling = ERROR_WARN then some (errors ++ [line ++ ": " ++ e])
  else none

/-- `parse_lines` (src/can_parser/src/lib.rs:313-355), sequential mode:
fold over the lines, dropping failed lines via the error policy; returns
the collected messages, the warning list and the final cache.  `none`
models a panic anywhere in the run. -/
def parse_lines (error_handling : String) (specs : Option Specs)
    (rgx : String → Option Captures) (lines : List String) (cache : Cache) :
    Option (List CANMessage × List String × Cache) :=
  lines.foldl
    (fun acc line =>
      acc.bind (fun st =>
        match parse_line_inner specs rgx line st.2.2 with
        | none => none
        | some (Except.ok r) => some (st.1 ++ [r.1], st.2.1, r.2)
        | some (Except.error e) =>
          (handle_parsing_error error_handling st.2.1 e line).map
            (fun errs => (st.1, errs, st.2.2))))
    (some ([], [], cache))

/-- The completion check of `parse_lines`
(src/can_parser/src/lib.rs:349-355): an empty warning list yields `Ok`,
otherwise `Err(ParserWarning(errors))`; `self.messages` is already set
either way. -/
def parse_lines_outcome (errors : List String) : Except (List String) Unit :=
  if errors = [] then Except.ok () else Except.error errors

/-! ## Claims about the pipeline -/

/-- C3 counterexample: with an annex whose PGN database is empty, parsing
the extended line with id `0CF00400` (PGN 61444) succeeds with an empty
SPN map and no error — but the PGN layout cache DOES gain an entry: the
default layout is inserted for the missing PGN, contrary to the claim. -/
theorem annex_miss_cache_counterexample :
    ((parse_line_inner (some { j1939 := some (Annex.json (some []) (some [])) })
        (fun _ => some { timestamp := none, id := some "0CF00400", data := none })
        "(0) 0CF00400#" []).map (Except.map (fun p => (p.1.data.spns, p.2))))
      = some (Except.ok ([], [(61444, defaultSpecPGN)])) ∧
    ([(61444, defaultSpecPGN)] : Cache) ≠ [] := by
  refine ⟨rfl, by simp⟩

/-- C3 amended: for a line whose identifier is extended and whose PGN is
absent from the annex's PGN database (and from the cache), parsing
succeeds, the frame has an empty SPN map and no per-line error is
produced — and the PGN layout cache gains an entry binding that PGN to the
default (empty) layout. -/
theorem annex_miss_spec (db : List (String × PgnData)) (sdb : Option (List (String × SpnData)))
    (cache : Cache) (idStr line : String) (cid : CANID)
    (hid : parse_id idStr defaultCANID = some cid)
    (hext : cid.flags.ext = true)
    (hcache : lookupAssoc cache cid.pgn = none)
    (hdb : lookupAssocStr db (toString cid.pgn) = none) :
    parse_line_inner (some { j1939 := some (Annex.json (some db) sdb) })
        (fun _ => some { timestamp := none, id := some idStr, data := none })
        line cache
      = some (Except.ok ({ defaultCANMessage with id := cid },
          insertAssoc cache cid.pgn defaultSpecPGN)) ∧
    ({ defaultCANMessage with id := cid } : CANMessage).data.spns = [] := by
  constructor
  · unfold parse_line_inner stepTimestamp stepData stepId get_id_metadata defaultCANMessage
    try dsimp only
    rw [hid]
    try dsimp only
    rw [if_pos hext]
    try dsimp only
    rw [hcache]
    try dsimp only
    rw [hdb]
    rfl
  · rfl

/-- Witness for `annex_miss_spec`: id "0CF00400" against an empty annex
database and an empty cache. -/
theorem annex_miss_spec_witness :
    parse_line_inner (some { j1939 := some (Annex.json (some []) (some [])) })
        (fun _ => some { timestamp := none, id := some "0CF00400", data := none })
        "(1) 0CF00400#" []
      = some (Except.ok ({ defaultCANMessage with id :=
          { id := 0x0CF00400, pri := 3, da := 255, sa := 0, pgn := 61444,
            flags := { ext := true, err := false, rtr := false } } },
          insertAssoc [] 61444 defaultSpecPGN)) ∧
    ({ defaultCANMessage with id :=
        { id := 0x0CF00400, pri := 3, da := 255, sa := 0, pgn := 61444,
          flags := { ext := true, err := false, rtr := false } } } : CANMessage).data.spns
      = [] :=
  annex_miss_spec [] (some []) [] "0CF00400" "(1) 0CF00400#"
    { id := 0x0CF00400, pri := 3, da := 255, sa := 0, pgn := 61444,
      flags := { ext := true, err := false, rtr := false } } rfl rfl rfl rfl

/-- C7 (code bug): an `id` capture that does not parse as a base-16 `u32`
— here "100000000", nine hex digits, overflowing 32 bits — makes
`parse_id`'s `.unwrap()` panic (modelled `none`), aborting the run,
instead of yielding a recoverable per-line failure for the error policy. -/
theorem bad_id_capture_panics :
    u32FromHex? "100000000" = none ∧
    parse_line_inner (some { j1939 := some (Annex.json (some []) (some [])) })
        (fun _ => some { timestamp := none, id := some "100000000", data := none })
        "(0) 100000000#" [] = none :=
  ⟨rfl, rfl⟩

/-- C9 counterexample: parsing the non-extended line `123#DEADBEEF` with an
annex configured leaves `da = 0` — the struct default — whereas the claim
says `da` keeps a default of 255. -/
theorem default_da_counterexample :
    ((parse_line_inner (some { j1939 := some (Annex.json (some []) (some [])) })
        (fun _ => some { timestamp := none, id := some "123", data := some "DEADBEEF" })
        "123#DEADBEEF" []).map (Except.map (fun p => p.1.id.da)))
      = some (Except.ok 0) ∧ (0 : Nat) ≠ 255 :=
  ⟨rfl, by decide⟩

lemma stepTimestamp_ok (caps : Captures) (msg0 msg : CANMessage)
    (h : stepTimestamp caps msg0 = Except.ok msg) :
    msg.id = msg0.id ∧ msg.data = msg0.data := by
  unfold stepTimestamp at h
  cases hts : caps.timestamp with
  | none =>
    rw [hts] at h
    try dsimp only at h
    rw [← Except.ok.inj h]
    exact ⟨rfl, rfl⟩
  | some t =>
    rw [hts] at h
    try dsimp only at h
    cases hp : parseF64? t with
    | none => rw [hp] at h; simp at h
    | some q =>
      rw [hp] at h
      rw [← Except.ok.inj h]
      exact ⟨rfl, rfl⟩

lemma stepData_ok (caps : Captures) (msg msg1 : CANMessage)
    (h : stepData caps msg = some (Except.ok msg1)) :
    msg1.id = msg.id ∧ msg1.data.spns = msg.data.spns := by
  unfold stepData at h
  cases hd : caps.data with
  | none =>
    rw [hd] at h
    try dsimp only at h
    rw [← Except.ok.inj (Option.some.inj h)]
    exact ⟨rfl, rfl⟩
  | some d =>
    rw [hd] at h
    try dsimp only at h
    cases hu : unpackData msg.data.data d.toList with
    | none => rw [hu] at h; simp at h
    | some r =>
      rw [hu] at h
      cases r with
      | error e => rw [Option.map_some'] at h; simp [Except.map] at h
      | ok p =>
        rw [Option.map_some'] at h
        have h2 : ({ msg with data := { msg.data with data := p.1, len := p.2 } }
            : CANMessage) = msg1 := Except.ok.inj (Option.some.inj h)
        rw [← h2]
        exact ⟨rfl, rfl⟩

lemma stepId_nonextended (specs : Option Specs) (caps : Captures) (cache : Cache)
    (msg : CANMessage) (idStr : String) (v : Nat) (m : CANMessage) (c' : Cache)
    (hid : caps.id = some idStr)
    (hmsgid : msg.id = defaultCANID)
    (hv : u32FromHex? idStr = some v)
    (hext : v ≤ 0x7FF)
    (h : stepId specs caps cache msg = some (Except.ok (m, c'))) :
    m.id.flags.ext = false ∧ m.id.sa = 0 ∧ m.id.da = 0 ∧ m.id.pgn = 0 ∧
    m.data = msg.data ∧ c' = cache := by
  have hb : decide (CAN_SFF_MASK < v) = false := by
    refine decide_eq_false ?_
    unfold CAN_SFF_MASK
    omega
  have hval : parse_id_value v defaultCANID
      = { id := v, pri := 0, da := 0, sa := 0, pgn := 0,
          flags := { ext := false,
                     err := decide ((v &&& CAN_ERR_FLAG) = CAN_ERR_FLAG),
                     rtr := decide ((v &&& CAN_RTR_FLAG) = CAN_RTR_FLAG) } } := by
    unfold parse_id_value
    dsimp only
    rw [hb]
    rw [if_neg (by decide : ¬(false = true))]
    rfl
  unfold stepId at h
  cases hs : specs with
  | none =>
    rw [hs, hid] at h
    have h1 := Except.ok.inj (Option.some.inj h)
    have hm : msg = m := congrArg Prod.fst h1
    have hc : cache = c' := congrArg Prod.snd h1
    rw [← hm, ← hc, hmsgid]
    exact ⟨rfl, rfl, rfl, rfl, rfl, rfl⟩
  | some a =>
    rw [hs, hid] at h
    try dsimp only at h
    rw [hmsgid] at h
    have hpid : parse_id idStr defaultCANID = some (parse_id_value v defaultCANID) := by
      unfold parse_id
      rw [hv]
      rfl
    rw [hpid] at h
    try dsimp only at h
    rw [hval] at h
    have hcond : ¬(({ id := v, pri := 0, da := 0, sa := 0, pgn := 0,
                      flags := { ext := false,
                                 err := decide ((v &&& CAN_ERR_FLAG) = CAN_ERR_FLAG),
                                 rtr := decide ((v &&& CAN_RTR_FLAG) = CAN_RTR_FLAG) } }
        : CANID).flags.ext = true) := by simp
    rw [if_neg hcond] at h
    have h1 := Except.ok.inj (Option.some.inj h)
    have hm : ({ msg with id :=
                  { id := v, pri := 0, da := 0, sa := 0, pgn := 0,
                    flags := { ext := false,
                               err := decide ((v &&& CAN_ERR_FLAG) = CAN_ERR_FLAG),
                               rtr := decide ((v &&& CAN_RTR_FLAG) = CAN_RTR_FLAG) } } }
        : CANMessage) = m := congrArg Prod.fst h1
    have hc : cache = c' := congrArg Prod.snd h1
    rw [← hm, ← hc]
    exact ⟨rfl, rfl, rfl, rfl, rfl, rfl⟩

/-- C9 amended: for every line whose `id` capture parses to a non-extended
identifier (`v ≤ 0x7FF`), such as `123#DEADBEEF`, whenever the line decodes
to a Frame — under any regex captures, any annex configuration and any
cache — that Frame has `ext = false` and its `sa`, `da` and `pgn` fields
keep their struct default values 0, 0 and 0 respectively
(`CANMessage::default()` sets `da = 0`, not 255), with an empty SPN map,
and the PGN layout cache is unchanged. -/
theorem nonextended_line_spec (specs : Option Specs) (cache : Cache)
    (rgx : String → Option Captures) (line : String) (caps : Captures)
    (idStr : String) (v : Nat) (m : CANMessage) (c' : Cache)
    (hrgx : rgx line = some caps)
    (hid : caps.id = some idStr)
    (hv : u32FromHex? idStr = some v)
    (hext : v ≤ 0x7FF)
    (hok : parse_line_inner specs rgx line cache = some (Except.ok (m, c'))) :
    m.id.flags.ext = false ∧ m.id.sa = 0 ∧ m.id.da = 0 ∧ m.id.pgn = 0 ∧
    m.data.spns = [] ∧ c' = cache := by
  unfold parse_line_inner at hok
  rw [hrgx] at hok
  try dsimp only at hok
  cases hts : stepTimestamp caps defaultCANMessage with
  | error e => rw [hts] at hok; simp at hok
  | ok msg =>
    rw [hts] at hok
    try dsimp only at hok
    obtain ⟨hmid, hmdata⟩ := stepTimestamp_ok caps defaultCANMessage msg hts
    cases hsd : stepData caps msg with
    | none => rw [hsd] at hok; simp at hok
    | some r =>
      rw [hsd] at hok
      cases r with
      | error e => simp at hok
      | ok msg1 =>
        try dsimp only at hok
        obtain ⟨hmid1, hspns1⟩ := stepData_ok caps msg msg1 hsd
        have hmsgid : msg1.id = defaultCANID := by
          rw [hmid1, hmid]
          rfl
        obtain ⟨g1, g2, g3, g4, g5, g6⟩ :=
          stepId_nonextended specs caps cache msg1 idStr v m c' hid hmsgid hv hext hok
        refine ⟨g1, g2, g3, g4, ?_, g6⟩
        rw [g5, hspns1, hmdata]
        rfl

/-- Witness for `nonextended_line_spec` at the line `123#DEADBEEF`, with an
annex configured and an empty cache. -/
theorem nonextended_line_spec_witness :
    u32FromHex? "123" = some 0x123 ∧ 0x123 ≤ 0x7FF ∧
    (∃ m : CANMessage, ∃ c' : Cache,
      parse_line_inner (some { j1939 := some (Annex.json (some []) (some [])) })
        (fun _ => some { timestamp := none, id := some "123", data := some "DEADBEEF" })
        "123#DEADBEEF" [] = some (Except.ok (m, c')) ∧
      (m.id.flags.ext = false ∧ m.id.sa = 0 ∧ m.id.da = 0 ∧ m.id.pgn = 0 ∧
       m.data.spns = [] ∧ c' = [])) := by
  refine ⟨rfl, by decide, ⟨_, _, rfl, ?_⟩⟩
  exact nonextended_line_spec
    (some { j1939 := some (Annex.json (some []) (some [])) }) []
    (fun _ => some { timestamp := none, id := some "123", data := some "DEADBEEF" })
    "123#DEADBEEF"
    { timestamp := none, id := some "123", data := some "DEADBEEF" }
    "123" 0x123 _ _ rfl rfl rfl (by decide) rfl

/-- C10 (code bug): a `data` capture with an odd number of hexadecimal
characters — here "ABC" — drives the loop's final two-character slice
(`data[2..4]`) out of bounds: line parsing panics (modelled `none`)
instead of returning a per-line result. -/
theorem odd_data_capture_panics :
    unpackData (List.replicate 64 0) "ABC".toList = none ∧
    parse_line_inner (some { j1939 := some (Annex.json (some []) (some [])) })
        (fun _ => some { timestamp := none, id := some "123", data := some "ABC" })
        "123#ABC" [] = none :=
  ⟨rfl, rfl⟩

/-- C8: per-line errors under mode "ignore" are dropped with nothing
recorded; under "warn" the string `line ++ ": " ++ reason` is appended to
the warning list and processing continues; any other mode value panics.
On completion an empty warning list yields success and a non-empty one a
warning report, while the successfully decoded frames are retained in the
output either way. -/
theorem error_policy_spec :
    (∀ errs e line, handle_parsing_error "ignore" errs e line = some errs) ∧
    (∀ errs e line,
      handle_parsing_error "warn" errs e line = some (errs ++ [line ++ ": " ++ e])) ∧
    (∀ mode errs e line, mode ≠ "ignore" → mode ≠ "warn" →
      handle_parsing_error mode errs e line = none) ∧
    (∀ specs rgx l1 l2 m1 c1 e cache,
      parse_line_inner specs rgx l1 cache = some (Except.ok (m1, c1)) →
      parse_line_inner specs rgx l2 c1 = some (Except.error e) →
      parse_lines "warn" specs rgx [l1, l2] cache = some ([m1], [l2 ++ ": " ++ e], c1) ∧
      parse_lines "ignore" specs rgx [l1, l2] cache = some ([m1], [], c1) ∧
      (∀ mode, mode ≠ "ignore" → mode ≠ "warn" →
        parse_lines mode specs rgx [l1, l2] cache = none)) ∧
    (∀ errs, (errs = [] → parse_lines_outcome errs = Except.ok ()) ∧
      (errs ≠ [] → parse_lines_outcome errs = Except.error errs)) := by
  have hother : ∀ mode errs e line, mode ≠ "ignore" → mode ≠ "warn" →
      handle_parsing_error mode errs e line = none := by
    intro mode errs e line h1 h2
    unfold handle_parsing_error ERROR_IGNORE ERROR_WARN
    rw [if_neg h1, if_neg h2]
  refine ⟨fun errs e line => rfl, fun errs e line => rfl, hother, ?_, ?_⟩
  · intro specs rgx l1 l2 m1 c1 e cache h1 h2
    refine ⟨?_, ?_, ?_⟩
    · unfold parse_lines
      rw [List.foldl_cons, List.foldl_cons, List.foldl_nil]
      rw [Option.some_bind]
      rw [h1]
      try dsimp only
      rw [Option.some_bind]
      try dsimp only
      rw [h2]
      rfl
    · unfold parse_lines
      rw [List.foldl_cons, List.foldl_cons, List.foldl_nil]
      rw [Option.some_bind]
      rw [h1]
      try dsimp only
      rw [Option.some_bind]
      try dsimp only
      rw [h2]
      rfl
    · intro mode hm1 hm2
      unfold parse_lines
      rw [List.foldl_cons, List.foldl_cons, List.foldl_nil]
      rw [Option.some_bind]
      rw [h1]
      try dsimp only
      rw [Option.some_bind]
      try dsimp only
      rw [h2]
      try dsimp only
      rw [hother mode [] e l2 hm1 hm2]
      rfl
  · intro errs
    constructor
    · intro h
      unfold parse_lines_outcome
      rw [if_pos h]
    · intro h
      unfold parse_lines_outcome
      rw [if_neg h]

/-- Witness for `error_policy_spec`: mode "other" panics on a concrete
per-line error, and a concrete good line followed by a bad line keeps the
decoded frame under both "warn" and "ignore". -/
theorem error_policy_spec_witness :
    handle_parsing_error "other" [] "reason" "line" = none ∧
    parse_lines "warn" none
        (fun s => if s = "good" then some { timestamp := none, id := none, data := none }
         else none) ["good", "bad"] []
      = some ([defaultCANMessage], ["bad" ++ ": " ++ "No captures found"], []) ∧
    parse_lines "ignore" none
        (fun s => if s = "good" then some { timestamp := none, id := none, data := none }
         else none) ["good", "bad"] [] = some ([defaultCANMessage], [], []) := by
  have h4 := error_policy_spec.2.2.2.1 none
    (fun s => if s = "good" then some { timestamp := none, id := none, data := none }
     else none) "good" "bad" defaultCANMessage [] "No captures found" [] rfl rfl
  exact ⟨error_policy_spec.2.2.1 "other" [] "reason" "line" (by decide) (by decide),
    h4.1, h4.2.1⟩

end CANParser
